import Mathlib

/-!
Shallow embedding of the opengov scraper/ingestion pipeline
(`backend/app/workers/scraper.py`, `backend/app/services/federal_register.py`,
`backend/app/services/grok.py`, `backend/app/services/grok_mock.py`) together
with the persisted data model (`backend/app/models/federal_register.py`,
`backend/app/models/article.py`, `backend/app/models/scraper_run.py`).

Conventions of the embedding:
 - Python dictionaries fetched from the Federal Register API become the
   `RawDoc` structure; a field is `none` when the key is absent.
 - The database is an explicit `DB` state; SQLAlchemy commits with the
   declared unique constraints are modelled in `insert_batch`, which returns
   `none` when a flush or commit raises `IntegrityError` (transaction rolled
   back, database unchanged).
 - Exceptions from library calls inside a per-item `try` body are injected by
   an oracle `Env.failAt : Nat -> Option FailStep` naming the step of
   `fetch_and_process` at which item `i` raises an unexpected exception.
 - Wall-clock values are abstract naturals supplied by `Env.now`;
   `datetime.fromisoformat` success is the oracle `Env.parseDateOk`.
-/

namespace OpenGov

/-- One raw document dictionary as returned by the Federal Register API
(the `doc` values iterated by `fetch_and_process`); a field is `none` when
the corresponding key is absent from the dictionary. -/
structure RawDoc where
  document_number : Option String := none
  title : Option String := none
  html_url : Option String := none
  abstract : Option String := none
  full_text : Option String := none
  publication_date : Option String := none
deriving DecidableEq

/-- Value stored in `Article.published_at`: either the parsed
`publication_date` string or the `datetime.now(timezone.utc)` fallback taken
when `datetime.fromisoformat` raises `ValueError` or `TypeError`. -/
inductive PubDate where
  | iso (s : String)
  | now
deriving DecidableEq

/-- Persisted row of `federal_register_entries`
(`app/models/federal_register.py`); `document_number` carries a declared
unique constraint. -/
structure FedEntry where
  id : Nat
  document_number : String
  raw_data : RawDoc
  fetched_at : Nat
  processed : Bool
deriving DecidableEq

/-- Persisted row of `articles` (`app/models/article.py`); `source_url`
carries a declared unique constraint and `federal_register_id` is the foreign
key set by `_insert_batch`. -/
structure ArticleRec where
  title : String
  summary : String
  source_url : String
  published_at : PubDate
  federal_register_id : Option Nat
deriving DecidableEq

/-- Persisted row of `scraper_runs` (`app/models/scraper_run.py`). -/
structure ScraperRun where
  id : Nat
  started_at : Nat
  completed_at : Option Nat
  processed_count : Nat
  skipped_count : Nat
  error_count : Nat
  success : Bool
  error_message : Option String
deriving DecidableEq

/-- The database state visible to the worker: the three tables the scraper
subsystem touches, plus the primary-key sequence of
`federal_register_entries`. -/
structure DB where
  fedEntries : List FedEntry := []
  articles : List ArticleRec := []
  scraperRuns : List ScraperRun := []
  nextFedId : Nat := 1
deriving DecidableEq

/-- All persisted `document_number` values. -/
def fedNums (db : DB) : List String := db.fedEntries.map (·.document_number)

/-- All persisted `source_url` values. -/
def articleUrls (db : DB) : List String := db.articles.map (·.source_url)

/-- Python `doc.get("document_number", "UNKNOWN")`. -/
def docNum (doc : RawDoc) : String := doc.document_number.getD "UNKNOWN"

/-- Python `doc.get("title", "Untitled")`. -/
def docTitle (doc : RawDoc) : String := doc.title.getD "Untitled"

/-- Python `doc.get("html_url", "")`. -/
def docUrl (doc : RawDoc) : String := doc.html_url.getD ""

/-- A `FederalRegister` ORM object built in the loop, before `db.flush()`
assigns its primary key. -/
structure PendingFed where
  document_number : String
  raw_data : RawDoc
  fetched_at : Nat
  processed : Bool
deriving DecidableEq

/-- An `Article` ORM object built in the loop; `federal_register_id` is not
set yet (it is assigned positionally inside `_insert_batch`). -/
structure PendingArticle where
  title : String
  summary : String
  source_url : String
  published_at : PubDate
deriving DecidableEq

/-- The `Article` row obtained from a pending article once `_insert_batch`
has assigned it a `federal_register_id` (or left it unset). -/
def withLink (a : PendingArticle) (fid : Option Nat) : ArticleRec :=
  { title := a.title, summary := a.summary, source_url := a.source_url,
    published_at := a.published_at, federal_register_id := fid }

/-- Model of `_insert_batch(db, new_fed_entries, new_articles)`:
`if not new_fed_entries: return`; `db.add_all(new_fed_entries); await
db.flush()` assigns sequential primary keys and raises `IntegrityError` when
the declared uniqueness of `FederalRegister.document_number` is violated
(within the batch or against persisted rows); the `zip` loop then sets
`article.federal_register_id = fed_entry.id` by list position (articles past
the end of the fed-entry list keep no link, exactly as `zip` stops at the
shorter list); `db.add_all(new_articles); await db.commit()` raises when the
declared uniqueness of `Article.source_url` is violated. `none` models the
raised exception: the transaction is rolled back and the database is
unchanged. On success the caller observes cleared lists. -/
def insert_batch (db : DB) (new_fed_entries : List PendingFed)
    (new_articles : List PendingArticle) : Option DB :=
  if new_fed_entries = [] then some db
  else
    let feds : List FedEntry := new_fed_entries.enum.map (fun p =>
      { id := db.nextFedId + p.1, document_number := p.2.document_number,
        raw_data := p.2.raw_data, fetched_at := p.2.fetched_at,
        processed := p.2.processed })
    if (new_fed_entries.map (·.document_number)).Nodup ∧
        ∀ n ∈ new_fed_entries.map (·.document_number), n ∉ fedNums db then
      let linked : List ArticleRec := new_articles.enum.map (fun p =>
        withLink p.2 ((feds[p.1]?).map (·.id)))
      if (new_articles.map (·.source_url)).Nodup ∧
          ∀ u ∈ new_articles.map (·.source_url), u ∉ articleUrls db then
        some { db with
          fedEntries := db.fedEntries ++ feds
          articles := db.articles ++ linked
          nextFedId := db.nextFedId + feds.length }
      else none
    else none

/-- The step of the per-item `try` body of `fetch_and_process` at which an
injected unexpected exception is raised. Every value other than `dedupe`
occurs after `new_fed_entries.append(fed_entry)` has already run. -/
inductive FailStep where
  /-- during the duplicate-check queries, before anything is appended -/
  | dedupe
  /-- during abstract and full-text field extraction -/
  | extract
  /-- during the `summarize_text` call -/
  | summarize
  /-- during `Article` construction, before it is appended -/
  | construct
deriving DecidableEq

/-- Ambient oracles for one pipeline invocation: injected per-item
exceptions, the summarizer result (`summarize_text` is total, see the grok
embedding below), `datetime.fromisoformat` success, and the clock. -/
structure Env where
  failAt : Nat → Option FailStep
  summarize : String → String
  parseDateOk : String → Bool
  now : Nat

/-- `BATCH_SIZE` from `app/workers/scraper.py`. -/
def BATCH_SIZE : Nat := 50

/-- Mutable state of the processing loop in `fetch_and_process`. -/
structure LoopSt where
  db : DB
  new_fed_entries : List PendingFed
  new_articles : List PendingArticle
  processed_count : Nat
  skipped_count : Nat
  error_count : Nat
  flushes : List Nat

/-- Python `abstract or doc.get("full_text", "")[:1000]` computed after
`abstract = doc.get("abstract", "")`. -/
def summaryInput (doc : RawDoc) : String :=
  let abstract := doc.abstract.getD ""
  if abstract ≠ "" then abstract else (doc.full_text.getD "").take 1000

/-- The `FederalRegister(...)` construction of the loop body (appended to
`new_fed_entries` right after the dedupe check). -/
def mkPendingFed (env : Env) (doc : RawDoc) : PendingFed :=
  { document_number := docNum doc, raw_data := doc, fetched_at := env.now,
    processed := true }

/-- The field extraction, summarizer call, defensive date parsing and
`Article(...)` construction of the loop body (appended to `new_articles`
when none of these steps raised). -/
def mkPendingArticle (env : Env) (doc : RawDoc) : PendingArticle :=
  { title := docTitle doc, summary := env.summarize (summaryInput doc),
    source_url := docUrl doc,
    published_at :=
      if env.parseDateOk (doc.publication_date.getD "") then
        PubDate.iso (doc.publication_date.getD "")
      else PubDate.now }

/-- One iteration of the `for i, doc in enumerate(documents, 1)` loop of
`fetch_and_process` (the per-item `try` body together with its
`except Exception` handler, which increments `error_count` and continues).
`env.failAt i` injects the unexpected exception, at the step it names; the
checks appear in source order: dedupe queries, duplicate skip, raw entry
append, field extraction, summarizer call, article construction and
append, then the threshold flush. -/
def processDoc (env : Env) (i : Nat) (doc : RawDoc) (st : LoopSt) : LoopSt :=
  if env.failAt i = some FailStep.dedupe then
    { st with error_count := st.error_count + 1 }
  else if (st.db.articles.any (fun a => a.source_url = docUrl doc)) ∨
      (st.db.fedEntries.any (fun f => f.document_number = docNum doc)) then
    { st with skipped_count := st.skipped_count + 1 }
  else
    let st1 := { st with
      new_fed_entries := st.new_fed_entries ++ [mkPendingFed env doc] }
    if env.failAt i = some FailStep.extract then
      { st1 with error_count := st1.error_count + 1 }
    else if env.failAt i = some FailStep.summarize then
      { st1 with error_count := st1.error_count + 1 }
    else if env.failAt i = some FailStep.construct then
      { st1 with error_count := st1.error_count + 1 }
    else
      let st2 := { st1 with
        new_articles := st1.new_articles ++ [mkPendingArticle env doc]
        processed_count := st1.processed_count + 1 }
      if BATCH_SIZE ≤ st2.new_fed_entries.length then
        match insert_batch st2.db st2.new_fed_entries st2.new_articles with
        | some db2 =>
          { st2 with
            db := db2
            new_fed_entries := []
            new_articles := []
            flushes := st2.flushes ++ [st2.new_fed_entries.length] }
        | none => { st2 with error_count := st2.error_count + 1 }
      else st2

/-- The whole `for` loop, with the running 1-based index of `enumerate`. -/
def processLoop (env : Env) : Nat → List RawDoc → LoopSt → LoopSt
  | _, [], st => st
  | i, doc :: rest, st => processLoop env (i + 1) rest (processDoc env i doc st)

/-- Observable outcome of one `fetch_and_process` invocation: the final
database, the three counters it logs, the sizes of the executed
`_insert_batch` flushes, whatever is left unflushed, and whether the outer
`except Exception` (fatal) handler ran. -/
structure RunResult where
  db : DB
  processed_count : Nat
  skipped_count : Nat
  error_count : Nat
  flushes : List Nat
  new_fed_entries : List PendingFed
  fatal : Bool

/-- Body of `fetch_and_process` after the fetch: the early return on an
empty document list, the per-item loop, the final-batch insert, and the
outer fatal handler which calls `db.rollback()` (committed batches remain,
the current transaction is discarded). -/
def process_documents (env : Env) (db : DB) (documents : List RawDoc) : RunResult :=
  if documents = [] then
    { db := db, processed_count := 0, skipped_count := 0, error_count := 0,
      flushes := [], new_fed_entries := [], fatal := false }
  else
    let st := processLoop env 1 documents
      { db := db, new_fed_entries := [], new_articles := [],
        processed_count := 0, skipped_count := 0, error_count := 0, flushes := [] }
    if st.new_fed_entries = [] then
      { db := st.db, processed_count := st.processed_count,
        skipped_count := st.skipped_count, error_count := st.error_count,
        flushes := st.flushes, new_fed_entries := [], fatal := false }
    else
      match insert_batch st.db st.new_fed_entries st.new_articles with
      | some db2 =>
        { db := db2, processed_count := st.processed_count,
          skipped_count := st.skipped_count, error_count := st.error_count,
          flushes := st.flushes ++ [st.new_fed_entries.length],
          new_fed_entries := [], fatal := false }
      | none =>
        { db := st.db, processed_count := st.processed_count,
          skipped_count := st.skipped_count, error_count := st.error_count,
          flushes := st.flushes, new_fed_entries := st.new_fed_entries,
          fatal := true }

/-! The Federal Register fetch client (`app/services/federal_register.py`).
The network is an oracle `pages : Nat -> PageResult` giving the outcome of
the HTTP GET for each page number. -/

/-- Outcome of one page request in `fetch_recent_documents`. -/
inductive PageResult where
  /-- 2xx response whose JSON body has the given `results` array -/
  | ok (results : List RawDoc)
  /-- `httpx.TimeoutException` raised by `client.get` -/
  | timeout
  /-- non-2xx status: `response.raise_for_status()` raises `HTTPStatusError` -/
  | httpStatusError
  /-- malformed response: `response.json()` (or similar) raises a
  non-`httpx` exception -/
  | malformed
deriving DecidableEq

/-- Exception classes caught by the `except` clauses of
`fetch_recent_documents`. -/
inductive FetchErr where
  | timeout
  | httpStatus
  | other
deriving DecidableEq

/-- Exceptions the `tenacity` retry decorators of this codebase treat as
retryable: `retry_if_exception_type((httpx.TimeoutException,
httpx.HTTPStatusError))`. -/
def fetchRetryable : FetchErr → Bool
  | FetchErr.timeout => true
  | FetchErr.httpStatus => true
  | FetchErr.other => false

/-- The `while page_count < settings.FEDERAL_REGISTER_MAX_PAGES` loop of
`fetch_recent_documents`: issues page requests starting at page 1,
accumulates `results`, stops early when a page returns fewer than
`per_page` items, and lets any raised exception escape to the handlers.
Also returns the log of page numbers actually requested. -/
def fetchPages (pages : Nat → PageResult) (per_page : Nat) :
    Nat → Nat → List RawDoc → List Nat →
      Except FetchErr (List RawDoc) × List Nat
  | _, 0, documents, reqs => (Except.ok documents, reqs)
  | page, r + 1, documents, reqs =>
    match pages page with
    | PageResult.ok results =>
      if results.length < per_page then
        (Except.ok (documents ++ results), reqs ++ [page])
      else fetchPages pages per_page (page + 1) r (documents ++ results)
        (reqs ++ [page])
    | PageResult.timeout => (Except.error FetchErr.timeout, reqs ++ [page])
    | PageResult.httpStatusError =>
      (Except.error FetchErr.httpStatus, reqs ++ [page])
    | PageResult.malformed => (Except.error FetchErr.other, reqs ++ [page])

/-- The undecorated body of `fetch_recent_documents`: the `try` block (the
pagination loop) together with its `except` clauses, each of which returns
`[]`. Because every exception class raised inside the `try` block is caught
by one of `except httpx.TimeoutException`, `except httpx.HTTPError`, or
`except Exception`, the body never raises: this totality is what defeats
the `@retry` decorator. -/
def fetch_body (pages : Nat → PageResult) (per_page max_pages : Nat) :
    List RawDoc × List Nat :=
  match fetchPages pages per_page 1 max_pages [] [] with
  | (Except.ok documents, reqs) => (documents, reqs)
  | (Except.error _, reqs) => ([], reqs)

/-- Semantics of `tenacity.retry(stop=stop_after_attempt(maxAttempts),
retry=retry_if_exception_type(...), reraise=True)`: the wrapped call is
re-invoked only when it raises a retryable exception and attempts remain;
otherwise the exception is re-raised. `body k` is the outcome of the k-th
invocation; the result is paired with the number of invocations made.
`remaining` counts the invocations still allowed after the current one. -/
def tenacityRun {E A : Type} (retryable : E → Bool)
    (body : Nat → Except E A) : Nat → Nat → Except E A × Nat
  | attempt, remaining =>
    match body attempt with
    | Except.ok a => (Except.ok a, attempt)
    | Except.error e =>
      match remaining with
      | 0 => (Except.error e, attempt)
      | r + 1 =>
        if retryable e then tenacityRun retryable body (attempt + 1) r
        else (Except.error e, attempt)

/-- The decorator applied with `stop_after_attempt(maxAttempts)`. -/
def tenacityRetry {E A : Type} (maxAttempts : Nat) (retryable : E → Bool)
    (body : Nat → Except E A) : Except E A × Nat :=
  tenacityRun retryable body 1 (maxAttempts - 1)

/-- `fetch_recent_documents` as deployed: the `@retry(stop_after_attempt(3),
...)` decorator wrapping the body. The body catches every retryable
exception internally and returns `[]` instead, so it never raises and the
decorator always observes a normal return on the first invocation. Returns
the document list together with the number of body invocations tenacity
made and the log of page requests issued. -/
def fetch_recent_documents (pages : Nat → PageResult)
    (per_page max_pages : Nat) : List RawDoc × Nat × List Nat :=
  let bodyE : Nat → Except FetchErr (List RawDoc × List Nat) := fun _ =>
    Except.ok (fetch_body pages per_page max_pages)
  match tenacityRetry 3 fetchRetryable bodyE with
  | (Except.ok (docs, reqs), attempts) => (docs, attempts, reqs)
  | (Except.error _, attempts) => ([], attempts, [])

/-- Full worker entry point `fetch_and_process`: fetch, then the document
processing body. -/
def fetch_and_process (env : Env) (pages : Nat → PageResult)
    (per_page max_pages : Nat) (db : DB) : RunResult :=
  process_documents env db (fetch_recent_documents pages per_page max_pages).1

/-! The summarizer (`app/services/grok.py` and `app/services/grok_mock.py`).
The Grok backend call is an oracle `GrokOutcome`. -/

/-- `SUMMARY_MAX_FALLBACK` from `app/services/grok.py`. -/
def SUMMARY_MAX_FALLBACK : Nat := 200

/-- Characters removed by Python `str.strip()` (the ASCII whitespace set;
the embedding elides the non-ASCII Unicode spaces Python also strips). -/
def pyIsSpace (c : Char) : Bool :=
  c = ' ' ∨ c = '\t' ∨ c = '\n' ∨ c = '\r' ∨ c = '\x0b' ∨ c = '\x0c'

/-- Python `not text or not text.strip()`: true exactly when the string is
empty or all whitespace. -/
def pyStripEmpty (s : String) : Bool := s.toList.all pyIsSpace

/-- Python `text.strip()`. -/
def pyStrip (s : String) : String :=
  String.mk (((s.toList.dropWhile pyIsSpace).reverse.dropWhile pyIsSpace).reverse)

/-- The truncation fallback of `_summarize_text_real`:
`text[:SUMMARY_MAX_FALLBACK] + "..." if len(text) > SUMMARY_MAX_FALLBACK
else text`. -/
def truncatedText (text : String) : String :=
  if text.length > SUMMARY_MAX_FALLBACK then
    text.take SUMMARY_MAX_FALLBACK ++ "..."
  else text

/-- Outcome of the Grok `chat/completions` POST inside
`_summarize_text_real`. -/
inductive GrokOutcome where
  /-- `httpx.TimeoutException` raised by `client.post` -/
  | timeout
  /-- non-2xx status: `response.raise_for_status()` raises
  `HTTPStatusError` (an `httpx.HTTPError`) -/
  | httpStatusError
  /-- other `httpx.HTTPError` (transport failure, unreachable backend) -/
  | otherHttpError
  /-- `response.json()` or the `choices`-chain extraction raised (for
  example a malformed body, or an empty `choices` array) -/
  | badResponse
  /-- extraction succeeded and produced `content` (possibly `""`, the
  value `data.get(...)` defaults to when keys are missing) -/
  | ok (content : String)
deriving DecidableEq

/-- Exception classes observable from the `try` block of
`_summarize_text_real`. -/
inductive GrokErr where
  | timeout
  | httpStatus
  | otherHttp
  | other
deriving DecidableEq

/-- The `try` block of `_summarize_text_real`: the backend call, the
`choices[0].message.content` extraction, and the `if summary:` check whose
else-branch returns the truncation fallback for an empty response body. -/
def grokTryBody (backend : GrokOutcome) (text : String) :
    Except GrokErr String :=
  match backend with
  | GrokOutcome.timeout => Except.error GrokErr.timeout
  | GrokOutcome.httpStatusError => Except.error GrokErr.httpStatus
  | GrokOutcome.otherHttpError => Except.error GrokErr.otherHttp
  | GrokOutcome.badResponse => Except.error GrokErr.other
  | GrokOutcome.ok content =>
    if content ≠ "" then Except.ok (pyStrip content)
    else Except.ok (truncatedText text)

/-- `_summarize_text_real(text)` with its exception handling made explicit:
the two early returns, then the `try` block with its `except
httpx.TimeoutException`, `except httpx.HTTPError`, and `except Exception`
handlers, each of which returns the truncation fallback.
`apiKeyConfigured` is `bool(settings.GROK_API_KEY.strip())`. The result is
`Except.error` exactly when an exception would escape the function; the
theorems show this never happens. -/
def summarize_text_realE (apiKeyConfigured : Bool) (backend : GrokOutcome)
    (text : String) : Except GrokErr String :=
  if pyStripEmpty text then Except.ok "No summary available."
  else if ¬apiKeyConfigured then Except.ok (truncatedText text)
  else
    match grokTryBody backend text with
    | Except.ok s => Except.ok s
    | Except.error GrokErr.timeout => Except.ok (truncatedText text)
    | Except.error GrokErr.httpStatus => Except.ok (truncatedText text)
    | Except.error GrokErr.otherHttp => Except.ok (truncatedText text)
    | Except.error GrokErr.other => Except.ok (truncatedText text)

/-- `LOREM_IPSUM_SUMMARIES` from `app/services/grok_mock.py`. -/
def LOREM_IPSUM_SUMMARIES : List String :=
  [ "Lorem ipsum dolor sit amet, consectetur adipiscing elit. The government announced new regulations affecting federal operations and citizen engagement.",
    "Sed do eiusmod tempor incididunt ut labore et dolore magna aliqua. A new agency directive was issued to improve administrative processes.",
    "Ut enim ad minim veniam, quis nostrud exercitation ullamco. The Department released updated guidelines for public benefit programs.",
    "Duis aute irure dolor in reprehenderit in voluptate velit. Federal funding was allocated for infrastructure development initiatives.",
    "Excepteur sint occaecat cupidatat non proident, sunt in culpa. New environmental protection standards were established by the agency.",
    "Qui officia deserunt mollit anim id est laborum. The Treasury Department announced changes to tax reporting requirements.",
    "Lorem ipsum dolor sit amet, consectetur adipiscing elit, sed do eiusmod. A new rule was proposed affecting healthcare providers nationwide.",
    "Tempor incididunt ut labore et dolore magna aliqua ut enim. The agency expanded its public comment period for pending regulations.",
    "Ad minim veniam, quis nostrud exercitation ullamco laboris nisi. Federal grants were made available for research and development.",
    "Ut aliquip ex ea commodo consequat duis aute irure dolor. The government issued guidance on compliance with recent legislative changes." ]

/-- `grok_mock.summarize_text(text)`: the mock summarizer; `choice` models
the pick `random.choice` makes from `LOREM_IPSUM_SUMMARIES`. -/
def summarize_text_mock (choice : Nat) (text : String) : String :=
  if pyStripEmpty text then "No summary available."
  else LOREM_IPSUM_SUMMARIES.getD (choice % LOREM_IPSUM_SUMMARIES.length) ""

/-! Derived notions and concrete scenario data used by the theorems. -/

/-- Document numbers of a pending batch. -/
def pendNums (l : List PendingFed) : List String := l.map (·.document_number)

/-- Source urls of a pending batch. -/
def pendUrls (l : List PendingArticle) : List String := l.map (·.source_url)

/-- The uniqueness invariant declared by the schema: all persisted
`document_number` values are pairwise distinct and all persisted
`source_url` values are pairwise distinct. -/
def dbUnique (db : DB) : Prop :=
  (fedNums db).Nodup ∧ (articleUrls db).Nodup

/-- A sequence of pipeline invocations, each with its own environment and
fetched document list, folded over the database. -/
def runMany (runs : List (Env × List RawDoc)) (db : DB) : DB :=
  runs.foldl (fun d p => (process_documents p.1 d p.2).db) db

/-- Number of loop items whose per-item processing raises (positions are
1-based, `i` is the index of the first listed document). -/
def failCount (fail : Nat → Option FailStep) : Nat → List RawDoc → Nat
  | _, [] => 0
  | i, _ :: rest =>
    (if (fail i).isSome then 1 else 0) + failCount fail (i + 1) rest

/-- Number of loop items processed without a raised exception. -/
def okCount (fail : Nat → Option FailStep) : Nat → List RawDoc → Nat
  | _, [] => 0
  | i, _ :: rest =>
    (if fail i = none then 1 else 0) + okCount fail (i + 1) rest

/-- Document numbers whose `FederalRegister` entry gets appended by the
loop over fresh documents: every item except those raising during the
dedupe check (the only failure point before the entry append). -/
def fedNumsAdded (fail : Nat → Option FailStep) : Nat → List RawDoc → List String
  | _, [] => []
  | i, d :: rest =>
    (if fail i = some FailStep.dedupe then [] else [docNum d]) ++
      fedNumsAdded fail (i + 1) rest

/-- Source urls whose `Article` gets appended by the loop over fresh
documents: exactly the items that raise nowhere. -/
def artUrlsAdded (fail : Nat → Option FailStep) : Nat → List RawDoc → List String
  | _, [] => []
  | i, d :: rest =>
    (if fail i = none then [docUrl d] else []) ++ artUrlsAdded fail (i + 1) rest

/-- Environment with no injected failures, the identity summarizer, a date
parser that always falls back to `now`, and clock value 0. -/
def idEnv : Env :=
  { failAt := fun _ => none, summarize := fun s => s,
    parseDateOk := fun _ => false, now := 0 }

/-- Failure oracle raising only at item `k`, at step `s`. -/
def failOnlyAt (k : Nat) (s : FailStep) : Nat → Option FailStep :=
  fun j => if j = k then some s else none

/-- `idEnv` with a single injected failure. -/
def envFailAt (k : Nat) (s : FailStep) : Env := { idEnv with failAt := failOnlyAt k s }

/-- Fresh synthetic fetched document number `i` for bulk scenarios. -/
def mkDoc (i : Nat) : RawDoc :=
  { document_number := some ("D" ++ toString i), title := some "t",
    html_url := some ("u" ++ toString i), abstract := some "a",
    full_text := none, publication_date := none }

/-- 120 distinct fresh fetched documents (the batch-flush scenario). -/
def docs120 : List RawDoc := (List.range 120).map mkDoc

/-- Fetched documents for the error-isolation counterexample. -/
def cDoc1 : RawDoc := { document_number := some "C1A", html_url := some "ca" }

/-- Second fetched document for the error-isolation counterexample. -/
def cDoc2 : RawDoc := { document_number := some "C1B", html_url := some "cb" }

/-- An in-progress `ScraperRun` row: `completed_at` is null and
`started_at` equals the clock value of `guardEnv`, so it lies inside any
positive staleness window. -/
def activeRun : ScraperRun :=
  { id := 1, started_at := 1000, completed_at := none, processed_count := 0,
    skipped_count := 0, error_count := 0, success := false,
    error_message := none }

/-- Database holding only the active run record. -/
def dbWithActiveRun : DB :=
  { fedEntries := [], articles := [], scraperRuns := [activeRun], nextFedId := 1 }

/-- Environment whose clock equals `activeRun.started_at`. -/
def guardEnv : Env := { idEnv with now := 1000 }

/-- A fresh fetched document for the run-guard scenario. -/
def guardDoc : RawDoc := { document_number := some "G1", html_url := some "gu" }

/-- A fresh fetched document for the run-finalization scenario. -/
def finDoc : RawDoc := { document_number := some "R1", html_url := some "ru" }

/-- Two fetched documents sharing a `document_number` (they collide inside
one batch, so the final flush raises `IntegrityError` and the run ends in
the fatal handler). -/
def dupDocA : RawDoc := { document_number := some "R2", html_url := some "rua" }

/-- Second document of the colliding pair. -/
def dupDocB : RawDoc := { document_number := some "R2", html_url := some "rub" }

/-- Fetched documents for the mispairing scenario. -/
def pDoc1 : RawDoc := { document_number := some "P1", html_url := some "pu1" }

/-- Second fetched document for the mispairing scenario. -/
def pDoc2 : RawDoc := { document_number := some "P2", html_url := some "pu2" }

/-- A pending entry for the positional-linking witness. -/
def wFed : PendingFed :=
  { document_number := "W1", raw_data := {}, fetched_at := 0, processed := true }

/-- A pending article for the positional-linking witness. -/
def wArt : PendingArticle :=
  { title := "wt", summary := "ws", source_url := "wu", published_at := PubDate.now }

/-- Documents for the idempotence witness. -/
def wDocA : RawDoc := { document_number := some "I1", html_url := some "iua" }

/-- Second document for the idempotence witness. -/
def wDocB : RawDoc := { document_number := some "I2", html_url := some "iub" }

/-- The database committed by the positional-linking witness flush:
`wFed` receives primary key 1 and `wArt` is linked to it. -/
def wLinkedDB : DB :=
  { fedEntries := [{ id := 1, document_number := "W1", raw_data := ({} : RawDoc), fetched_at := 0, processed := true }],
    articles := [withLink wArt (some 1)], scraperRuns := [], nextFedId := 2 }

/-! Theorems. -/

/-- Mapping a function that ignores the index over an enumerated list is a
plain map over the elements. -/
lemma enumFrom_map_snd {α β : Type} (f : Nat × α → β) (g : α → β)
    (h : ∀ n a, f (n, a) = g a) :
    ∀ (n : Nat) (l : List α), (l.enumFrom n).map f = l.map g
  | _, [] => rfl
  | n, a :: l => by
    simp only [List.enumFrom, List.map_cons, h]
    rw [enumFrom_map_snd f g h (n + 1) l]

/-- Specialization of `enumFrom_map_snd` to `List.enum`. -/
lemma enum_map_snd {α β : Type} (f : Nat × α → β) (g : α → β)
    (h : ∀ n a, f (n, a) = g a) (l : List α) : l.enum.map f = l.map g :=
  enumFrom_map_snd f g h 0 l

/-- Characterization of a valid flush: with the batch keys pairwise
distinct and fresh with respect to the persisted rows, `_insert_batch`
commits, the persisted key lists are extended by exactly the batch keys,
and the scraper-run table is untouched. -/
lemma insert_batch_spec (db : DB) (f : List PendingFed)
    (a : List PendingArticle) (hfa : f = [] → a = [])
    (h1 : (pendNums f).Nodup) (h2 : ∀ n ∈ pendNums f, n ∉ fedNums db)
    (h3 : (pendUrls a).Nodup) (h4 : ∀ u ∈ pendUrls a, u ∉ articleUrls db) :
    ∃ db2, insert_batch db f a = some db2 ∧
      fedNums db2 = fedNums db ++ pendNums f ∧
      articleUrls db2 = articleUrls db ++ pendUrls a ∧
      db2.scraperRuns = db.scraperRuns := by
  by_cases hf : f = []
  · subst hf
    refine ⟨db, by simp [insert_batch], by simp [pendNums], ?_, rfl⟩
    simp [pendUrls, hfa rfl]
  · have hc1 : ((f.map (·.document_number)).Nodup ∧
        ∀ n ∈ f.map (·.document_number), n ∉ fedNums db) := ⟨h1, h2⟩
    have hc2 : ((a.map (·.source_url)).Nodup ∧
        ∀ u ∈ a.map (·.source_url), u ∉ articleUrls db) := ⟨h3, h4⟩
    rcases hres : insert_batch db f a with _ | db2
    · exfalso
      revert hres
      simp only [insert_batch, if_neg hf, if_pos hc1, if_pos hc2]
      simp
    · refine ⟨db2, rfl, ?_⟩
      have heq := hres
      simp only [insert_batch, if_neg hf, if_pos hc1, if_pos hc2] at heq
      obtain rfl : _ = db2 := Option.some.inj heq
      refine ⟨?_, ?_, rfl⟩
      · simp only [fedNums, pendNums, List.map_append]
        congr 1
        rw [List.map_map]
        exact enum_map_snd _ _ (fun n x => rfl) f
      · simp only [articleUrls, pendUrls, List.map_append]
        congr 1
        rw [List.map_map]
        exact enum_map_snd _ _ (fun n x => rfl) a

/-- How one loop iteration transforms the combined key lists (persisted
plus pending) and the counters, for a document whose dedupe keys are fresh
with respect to both the database and the pending batch. -/
lemma processDoc_spec (env : Env) (i : Nat) (doc : RawDoc) (st : LoopSt)
    (hN : (fedNums st.db ++ (pendNums st.new_fed_entries ++ [docNum doc])).Nodup)
    (hU : (articleUrls st.db ++ (pendUrls st.new_articles ++ [docUrl doc])).Nodup) :
    (fedNums (processDoc env i doc st).db ++
        pendNums (processDoc env i doc st).new_fed_entries
      = fedNums st.db ++ (pendNums st.new_fed_entries ++
          (if env.failAt i = some FailStep.dedupe then [] else [docNum doc])))
    ∧ (articleUrls (processDoc env i doc st).db ++
        pendUrls (processDoc env i doc st).new_articles
      = articleUrls st.db ++ (pendUrls st.new_articles ++
          (if env.failAt i = none then [docUrl doc] else [])))
    ∧ (processDoc env i doc st).processed_count
        = st.processed_count + (if env.failAt i = none then 1 else 0)
    ∧ (processDoc env i doc st).error_count
        = st.error_count + (if (env.failAt i).isSome then 1 else 0)
    ∧ (processDoc env i doc st).skipped_count = st.skipped_count := by
  have hUrlDb : docUrl doc ∉ articleUrls st.db := fun hmem =>
    (List.disjoint_of_nodup_append hU) hmem (by simp)
  have hNumDb : docNum doc ∉ fedNums st.db := fun hmem =>
    (List.disjoint_of_nodup_append hN) hmem (by simp)
  have hexA : (st.db.articles.any (fun a => a.source_url = docUrl doc)) = false := by
    simp only [List.any_eq_false, decide_eq_true_eq]
    intro a hmem heq
    exact hUrlDb (List.mem_map.mpr ⟨a, hmem, heq⟩)
  have hexF : (st.db.fedEntries.any
      (fun f => f.document_number = docNum doc)) = false := by
    simp only [List.any_eq_false, decide_eq_true_eq]
    intro f hmem heq
    exact hNumDb (List.mem_map.mpr ⟨f, hmem, heq⟩)
  rcases hfail : env.failAt i with _ | s
  · by_cases hB : BATCH_SIZE ≤ st.new_fed_entries.length + 1
    · have hpn : pendNums (st.new_fed_entries ++ [mkPendingFed env doc])
          = pendNums st.new_fed_entries ++ [docNum doc] := by
        simp [pendNums, mkPendingFed]
      have hpu : pendUrls (st.new_articles ++ [mkPendingArticle env doc])
          = pendUrls st.new_articles ++ [docUrl doc] := by
        simp [pendUrls, mkPendingArticle]
      obtain ⟨db2, hib, hk1, hk2, _⟩ := insert_batch_spec st.db
        (st.new_fed_entries ++ [mkPendingFed env doc])
        (st.new_articles ++ [mkPendingArticle env doc])
        (fun h => absurd h (by simp))
        (by rw [hpn]; exact List.Nodup.of_append_right hN)
        (by
          intro n hn
          rw [hpn] at hn
          exact (List.disjoint_of_nodup_append hN).symm hn)
        (by rw [hpu]; exact List.Nodup.of_append_right hU)
        (by
          intro u hu
          rw [hpu] at hu
          exact (List.disjoint_of_nodup_append hU).symm hu)
      rw [hpn] at hk1
      rw [hpu] at hk2
      refine ⟨?_, ?_, ?_, ?_, ?_⟩ <;>
        simp [processDoc, hfail, hexA, hexF, hB, hib, hk1, hk2, pendNums, pendUrls]
    · refine ⟨?_, ?_, ?_, ?_, ?_⟩ <;>
        simp [processDoc, hfail, hexA, hexF, hB, pendNums, pendUrls,
          mkPendingFed, mkPendingArticle]
  · cases s
    · refine ⟨?_, ?_, ?_, ?_, ?_⟩ <;> simp [processDoc, hfail]
    · refine ⟨?_, ?_, ?_, ?_, ?_⟩ <;>
        simp [processDoc, hfail, hexA, hexF, pendNums, mkPendingFed]
    · refine ⟨?_, ?_, ?_, ?_, ?_⟩ <;>
        simp [processDoc, hfail, hexA, hexF, pendNums, mkPendingFed]
    · refine ⟨?_, ?_, ?_, ?_, ?_⟩ <;>
        simp [processDoc, hfail, hexA, hexF, pendNums, mkPendingFed]

/-- The loop invariant: over documents whose dedupe keys are fresh and
pairwise distinct (jointly with the persisted and pending keys), the loop
appends exactly the predicted key lists, counts exactly the predicted
processed and error totals, never skips, and preserves joint
distinctness. -/
lemma processLoop_spec (env : Env) :
    ∀ (docs : List RawDoc) (i : Nat) (st : LoopSt),
    (fedNums st.db ++ (pendNums st.new_fed_entries ++ docs.map docNum)).Nodup →
    (articleUrls st.db ++ (pendUrls st.new_articles ++ docs.map docUrl)).Nodup →
    (fedNums (processLoop env i docs st).db ++
        pendNums (processLoop env i docs st).new_fed_entries
      = fedNums st.db ++
          (pendNums st.new_fed_entries ++ fedNumsAdded env.failAt i docs))
    ∧ (articleUrls (processLoop env i docs st).db ++
        pendUrls (processLoop env i docs st).new_articles
      = articleUrls st.db ++
          (pendUrls st.new_articles ++ artUrlsAdded env.failAt i docs))
    ∧ (processLoop env i docs st).processed_count
        = st.processed_count + okCount env.failAt i docs
    ∧ (processLoop env i docs st).error_count
        = st.error_count + failCount env.failAt i docs
    ∧ (processLoop env i docs st).skipped_count = st.skipped_count
    ∧ (fedNums (processLoop env i docs st).db ++
        pendNums (processLoop env i docs st).new_fed_entries).Nodup
    ∧ (articleUrls (processLoop env i docs st).db ++
        pendUrls (processLoop env i docs st).new_articles).Nodup
  | [], i, st => fun hN hU => by
    simp only [processLoop, fedNumsAdded, artUrlsAdded, okCount, failCount]
    exact ⟨by simp, by simp, by simp, by simp, by simp,
      by simpa using hN, by simpa using hU⟩
  | d :: rest, i, st => fun hN hU => by
    have hNd : (fedNums st.db ++
        (pendNums st.new_fed_entries ++ [docNum d])).Nodup := by
      refine List.Nodup.sublist ?_ hN
      exact (List.Sublist.refl _).append ((List.Sublist.refl _).append
        (List.singleton_sublist.mpr (List.mem_cons_self _ _)))
    have hUd : (articleUrls st.db ++
        (pendUrls st.new_articles ++ [docUrl d])).Nodup := by
      refine List.Nodup.sublist ?_ hU
      exact (List.Sublist.refl _).append ((List.Sublist.refl _).append
        (List.singleton_sublist.mpr (List.mem_cons_self _ _)))
    obtain ⟨e1, e2, e3, e4, e5⟩ := processDoc_spec env i d st hNd hUd
    have hN1 : (fedNums (processDoc env i d st).db ++
        (pendNums (processDoc env i d st).new_fed_entries ++
          rest.map docNum)).Nodup := by
      rw [← List.append_assoc, e1]
      by_cases hd : env.failAt i = some FailStep.dedupe
      · rw [if_pos hd]
        simp only [List.append_nil]
        rw [← List.append_assoc] at hN
        exact List.Nodup.sublist
          ((List.Sublist.refl _).append (List.sublist_cons_self _ _)) hN
      · rw [if_neg hd]
        rw [← List.append_assoc] at hN
        simpa [List.append_assoc] using hN
    have hU1 : (articleUrls (processDoc env i d st).db ++
        (pendUrls (processDoc env i d st).new_articles ++
          rest.map docUrl)).Nodup := by
      rw [← List.append_assoc, e2]
      by_cases hd : env.failAt i = none
      · rw [if_pos hd]
        rw [← List.append_assoc] at hU
        simpa [List.append_assoc] using hU
      · rw [if_neg hd]
        simp only [List.append_nil]
        rw [← List.append_assoc] at hU
        exact List.Nodup.sublist
          ((List.Sublist.refl _).append (List.sublist_cons_self _ _)) hU
    obtain ⟨f1, f2, f3, f4, f5, f6, f7⟩ :=
      processLoop_spec env rest (i + 1) (processDoc env i d st) hN1 hU1
    refine ⟨?_, ?_, ?_, ?_, ?_, ?_, ?_⟩
    · show fedNums (processLoop env (i + 1) rest (processDoc env i d st)).db ++
        pendNums (processLoop env (i + 1) rest
          (processDoc env i d st)).new_fed_entries = _
      rw [f1, ← List.append_assoc, e1]
      simp [fedNumsAdded, List.append_assoc]
    · show articleUrls (processLoop env (i + 1) rest (processDoc env i d st)).db ++
        pendUrls (processLoop env (i + 1) rest
          (processDoc env i d st)).new_articles = _
      rw [f2, ← List.append_assoc, e2]
      simp [artUrlsAdded, List.append_assoc]
    · show (processLoop env (i + 1) rest (processDoc env i d st)).processed_count = _
      rw [f3, e3]
      show _ = st.processed_count + okCount env.failAt i (d :: rest)
      simp only [okCount]
      rw [Nat.add_assoc]
    · show (processLoop env (i + 1) rest (processDoc env i d st)).error_count = _
      rw [f4, e4]
      show _ = st.error_count + failCount env.failAt i (d :: rest)
      simp only [failCount]
      rw [Nat.add_assoc]
    · show (processLoop env (i + 1) rest (processDoc env i d st)).skipped_count = _
      rw [f5, e5]
    · exact f6
    · exact f7

/-- The pending article list never outgrows the pending entry list: the
entry is appended before any step that can append the article. -/
lemma processDoc_len (env : Env) (i : Nat) (doc : RawDoc) (st : LoopSt)
    (h : st.new_articles.length ≤ st.new_fed_entries.length) :
    (processDoc env i doc st).new_articles.length ≤
      (processDoc env i doc st).new_fed_entries.length := by
  simp only [processDoc]
  split_ifs <;>
    first
      | exact h
      | (split <;> simp <;> omega)
      | (simp
         omega)

/-- `processDoc_len` extended over the whole loop. -/
lemma processLoop_len (env : Env) :
    ∀ (docs : List RawDoc) (i : Nat) (st : LoopSt),
    st.new_articles.length ≤ st.new_fed_entries.length →
    (processLoop env i docs st).new_articles.length ≤
      (processLoop env i docs st).new_fed_entries.length
  | [], _, _ => fun h => h
  | d :: rest, i, st => fun h =>
    processLoop_len env rest (i + 1) (processDoc env i d st)
      (processDoc_len env i d st h)

/-- End-to-end characterization of one pipeline run over fresh, pairwise
distinct documents: the persisted key lists are extended by exactly the
predicted keys, the counters match the failure oracle, no document is
skipped, the pending buffer ends empty, and the run does not end in the
fatal handler. -/
lemma process_documents_spec (env : Env) (db : DB) (docs : List RawDoc)
    (hn : (fedNums db ++ docs.map docNum).Nodup)
    (hu : (articleUrls db ++ docs.map docUrl).Nodup) :
    fedNums (process_documents env db docs).db
        = fedNums db ++ fedNumsAdded env.failAt 1 docs
    ∧ articleUrls (process_documents env db docs).db
        = articleUrls db ++ artUrlsAdded env.failAt 1 docs
    ∧ (process_documents env db docs).processed_count = okCount env.failAt 1 docs
    ∧ (process_documents env db docs).error_count = failCount env.failAt 1 docs
    ∧ (process_documents env db docs).skipped_count = 0
    ∧ (process_documents env db docs).fatal = false
    ∧ (process_documents env db docs).new_fed_entries = [] := by
  by_cases hempty : docs = []
  · subst hempty
    refine ⟨?_, ?_, ?_, ?_, ?_, ?_, ?_⟩ <;>
      simp [process_documents, fedNumsAdded, artUrlsAdded, okCount, failCount]
  · obtain ⟨f1, f2, f3, f4, f5, f6, f7⟩ := processLoop_spec env docs 1
      { db := db, new_fed_entries := [], new_articles := [],
        processed_count := 0, skipped_count := 0, error_count := 0, flushes := [] }
      (by simpa [pendNums] using hn) (by simpa [pendUrls] using hu)
    simp only [pendNums, pendUrls, List.map_nil, List.nil_append] at f1 f2
    by_cases hpend : (processLoop env 1 docs
      { db := db, new_fed_entries := [], new_articles := [],
        processed_count := 0, skipped_count := 0, error_count := 0,
        flushes := [] }).new_fed_entries = []
    · have hlen := processLoop_len env docs 1
        { db := db, new_fed_entries := [], new_articles := [],
          processed_count := 0, skipped_count := 0, error_count := 0,
          flushes := [] } (by simp)
      rw [hpend] at hlen
      simp only [List.length_nil, Nat.le_zero] at hlen
      have harts := List.eq_nil_of_length_eq_zero hlen
      rw [hpend] at f1
      rw [harts] at f2
      simp only [List.map_nil, List.append_nil] at f1 f2
      refine ⟨?_, ?_, ?_, ?_, ?_, ?_, ?_⟩ <;>
        simp [process_documents, if_neg hempty, hpend, f1, f2, f3, f4, f5,
          pendNums, pendUrls]
    · obtain ⟨db2, hib, hk1, hk2, _⟩ := insert_batch_spec _ _ _
        (fun hh => absurd hh hpend)
        (List.Nodup.of_append_right f6)
        (fun n hn2 => (List.disjoint_of_nodup_append f6).symm hn2)
        (List.Nodup.of_append_right f7)
        (fun u hu2 => (List.disjoint_of_nodup_append f7).symm hu2)
      refine ⟨?_, ?_, ?_, ?_, ?_, ?_, ?_⟩ <;>
        simp [process_documents, if_neg hempty, hpend, hib, hk1, hk2,
          f1, f2, f3, f4, f5, pendNums, pendUrls]

/-- With no injected failure at index `i` and the document already present
by url or number, the iteration only increments `skipped_count`. -/
lemma processDoc_dup (env : Env) (i : Nat) (d : RawDoc) (st : LoopSt)
    (h0 : env.failAt i = none)
    (hd : docUrl d ∈ articleUrls st.db ∨ docNum d ∈ fedNums st.db) :
    processDoc env i d st =
      { st with skipped_count := st.skipped_count + 1 } := by
  have hdup : (st.db.articles.any (fun a => a.source_url = docUrl d)) = true ∨
      (st.db.fedEntries.any (fun f => f.document_number = docNum d)) = true := by
    rcases hd with h | h
    · left
      rw [List.any_eq_true]
      obtain ⟨a, hmem, heq⟩ := List.mem_map.mp h
      exact ⟨a, hmem, by simp [heq]⟩
    · right
      rw [List.any_eq_true]
      obtain ⟨f, hmem, heq⟩ := List.mem_map.mp h
      exact ⟨f, hmem, by simp [heq]⟩
  simp only [processDoc]
  rw [if_neg (by simp [h0]), if_pos hdup]

/-- With no injected failures and every document already present by url or
number, the whole loop only counts skips and leaves everything else
unchanged. -/
lemma processLoop_allDup (env : Env) (h0 : ∀ j, env.failAt j = none) :
    ∀ (docs : List RawDoc) (i : Nat) (st : LoopSt),
    (∀ d ∈ docs, docUrl d ∈ articleUrls st.db ∨ docNum d ∈ fedNums st.db) →
    processLoop env i docs st =
      { st with skipped_count := st.skipped_count + docs.length }
  | [], i, st => fun _ => by simp [processLoop]
  | d :: rest, i, st => fun hd => by
    have hstep := processDoc_dup env i d st (h0 i)
      (hd d (List.mem_cons_self d rest))
    have hrec := processLoop_allDup env h0 rest (i + 1)
      { st with skipped_count := st.skipped_count + 1 }
      (fun x hx => hd x (List.mem_cons_of_mem d hx))
    show processLoop env (i + 1) rest (processDoc env i d st) = _
    rw [hstep, hrec]
    have harith : st.skipped_count + 1 + rest.length
        = st.skipped_count + (rest.length + 1) := by omega
    simp [harith]

/-- A second run over fully ingested data changes nothing: every item is
skipped, the database is untouched and no flush happens. -/
lemma process_documents_allDup (env : Env) (db : DB) (docs : List RawDoc)
    (h0 : ∀ j, env.failAt j = none)
    (hd : ∀ d ∈ docs, docUrl d ∈ articleUrls db ∨ docNum d ∈ fedNums db) :
    process_documents env db docs =
      { db := db, processed_count := 0, skipped_count := docs.length,
        error_count := 0, flushes := [], new_fed_entries := [],
        fatal := false } := by
  by_cases hempty : docs = []
  · subst hempty
    simp [process_documents]
  · have hloop := processLoop_allDup env h0 docs 1
      { db := db, new_fed_entries := [], new_articles := [],
        processed_count := 0, skipped_count := 0, error_count := 0,
        flushes := [] } (by simpa using hd)
    simp [process_documents, if_neg hempty, hloop]

/-- With no failures, every item counts as processed. -/
lemma okCount_of_none (f : Nat → Option FailStep) (h : ∀ j, f j = none) :
    ∀ (i : Nat) (docs : List RawDoc), okCount f i docs = docs.length
  | _, [] => rfl
  | i, d :: rest => by
    simp [okCount, h i, okCount_of_none f h (i + 1) rest, Nat.add_comm]

/-- With no failures, no item counts as an error. -/
lemma failCount_of_none (f : Nat → Option FailStep) (h : ∀ j, f j = none) :
    ∀ (i : Nat) (docs : List RawDoc), failCount f i docs = 0
  | _, [] => rfl
  | i, d :: rest => by
    simp [failCount, h i, failCount_of_none f h (i + 1) rest]

/-- With no failures, every document contributes its article url. -/
lemma artUrlsAdded_of_none (f : Nat → Option FailStep) (h : ∀ j, f j = none) :
    ∀ (i : Nat) (docs : List RawDoc), artUrlsAdded f i docs = docs.map docUrl
  | _, [] => rfl
  | i, d :: rest => by
    simp [artUrlsAdded, h i, artUrlsAdded_of_none f h (i + 1) rest]

/-- With no failures, every document contributes its entry number. -/
lemma fedNumsAdded_of_none (f : Nat → Option FailStep) (h : ∀ j, f j = none) :
    ∀ (i : Nat) (docs : List RawDoc), fedNumsAdded f i docs = docs.map docNum
  | _, [] => rfl
  | i, d :: rest => by
    have : f i ≠ some FailStep.dedupe := by rw [h i]; exact Option.noConfusion
    simp [fedNumsAdded, this, fedNumsAdded_of_none f h (i + 1) rest]

/-- Failure totals over indices where the oracle is quiescent. -/
lemma failCount_eq_zero (f : Nat → Option FailStep) :
    ∀ (i : Nat) (docs : List RawDoc), (∀ j, i ≤ j → f j = none) →
    failCount f i docs = 0
  | _, [], _ => rfl
  | i, d :: rest, h => by
    simp [failCount, h i (Nat.le_refl i),
      failCount_eq_zero f (i + 1) rest (fun j hj => h j (by omega))]

/-- `okCount` over indices where the oracle is quiescent. -/
lemma okCount_of_quiet (f : Nat → Option FailStep) :
    ∀ (i : Nat) (docs : List RawDoc), (∀ j, i ≤ j → f j = none) →
    okCount f i docs = docs.length
  | _, [], _ => rfl
  | i, d :: rest, h => by
    simp [okCount, h i (Nat.le_refl i),
      okCount_of_quiet f (i + 1) rest (fun j hj => h j (by omega)),
      Nat.add_comm]

/-- `fedNumsAdded` length over quiescent indices. -/
lemma fedNumsAdded_quiet_length (f : Nat → Option FailStep) :
    ∀ (i : Nat) (docs : List RawDoc), (∀ j, i ≤ j → f j = none) →
    (fedNumsAdded f i docs).length = docs.length
  | _, [], _ => rfl
  | i, d :: rest, h => by
    have : f i ≠ some FailStep.dedupe := by
      rw [h i (Nat.le_refl i)]; exact Option.noConfusion
    simp [fedNumsAdded, this,
      fedNumsAdded_quiet_length f (i + 1) rest (fun j hj => h j (by omega))]

/-- `artUrlsAdded` length over quiescent indices. -/
lemma artUrlsAdded_quiet_length (f : Nat → Option FailStep) :
    ∀ (i : Nat) (docs : List RawDoc), (∀ j, i ≤ j → f j = none) →
    (artUrlsAdded f i docs).length = docs.length
  | _, [], _ => rfl
  | i, d :: rest, h => by
    simp [artUrlsAdded, h i (Nat.le_refl i),
      artUrlsAdded_quiet_length f (i + 1) rest (fun j hj => h j (by omega))]

/-- Exactly one failure in range contributes exactly one error. -/
lemma failCount_single (f : Nat → Option FailStep) (k : Nat) (s : FailStep)
    (hf : ∀ j, f j = if j = k then some s else none) :
    ∀ (i : Nat) (docs : List RawDoc), i ≤ k → k < i + docs.length →
    failCount f i docs = 1
  | i, [], h1, h2 => by simp at h2; omega
  | i, d :: rest, h1, h2 => by
    by_cases hik : i = k
    · have hrest : failCount f (i + 1) rest = 0 :=
        failCount_eq_zero f (i + 1) rest (fun j hj => by
          rw [hf j, if_neg (by omega)])
      rw [failCount, hf i, if_pos hik, hrest]
      simp
    · have hi : f i = none := by rw [hf i, if_neg hik]
      rw [failCount, hi]
      simp only [List.length_cons] at h2
      simp [failCount_single f k s hf (i + 1) rest (by omega) (by omega)]

/-- Exactly one failure in range: every other item is processed. -/
lemma okCount_single (f : Nat → Option FailStep) (k : Nat) (s : FailStep)
    (hf : ∀ j, f j = if j = k then some s else none) :
    ∀ (i : Nat) (docs : List RawDoc), i ≤ k → k < i + docs.length →
    okCount f i docs = docs.length - 1
  | i, [], h1, h2 => by simp at h2; omega
  | i, d :: rest, h1, h2 => by
    by_cases hik : i = k
    · have hrest : okCount f (i + 1) rest = rest.length :=
        okCount_of_quiet f (i + 1) rest (fun j hj => by
          rw [hf j, if_neg (by omega)])
      rw [okCount, hf i, if_pos hik, hrest]
      simp
    · have hi : f i = none := by rw [hf i, if_neg hik]
      simp only [List.length_cons] at h2
      have h3 : 1 ≤ rest.length := by omega
      rw [okCount, hi]
      simp [okCount_single f k s hf (i + 1) rest (by omega) (by omega)]
      omega

/-- Exactly one failure in range: the raw entry of the failed item is still
appended unless the failure hit the dedupe check. -/
lemma fedNumsAdded_single_length (f : Nat → Option FailStep) (k : Nat)
    (s : FailStep) (hf : ∀ j, f j = if j = k then some s else none) :
    ∀ (i : Nat) (docs : List RawDoc), i ≤ k → k < i + docs.length →
    (fedNumsAdded f i docs).length =
      if s = FailStep.dedupe then docs.length - 1 else docs.length
  | i, [], h1, h2 => by simp at h2; omega
  | i, d :: rest, h1, h2 => by
    by_cases hik : i = k
    · have hrest : (fedNumsAdded f (i + 1) rest).length = rest.length :=
        fedNumsAdded_quiet_length f (i + 1) rest (fun j hj => by
          rw [hf j, if_neg (by omega)])
      have hfi : f i = some s := by rw [hf i, if_pos hik]
      by_cases hs : s = FailStep.dedupe
      · rw [fedNumsAdded, hfi, if_pos (by rw [hs]), if_pos hs]
        simpa using hrest
      · have : f i ≠ some FailStep.dedupe := by
          rw [hfi]
          intro hc
          exact hs (Option.some.inj hc)
        rw [fedNumsAdded, hfi, if_neg (by simpa using hs), if_neg hs]
        simp [hrest]
    · have hi : f i = none := by rw [hf i, if_neg hik]
      have : f i ≠ some FailStep.dedupe := by rw [hi]; exact Option.noConfusion
      simp only [List.length_cons] at h2
      have hrec := fedNumsAdded_single_length f k s hf (i + 1) rest
        (by omega) (by omega)
      have h3 : 1 ≤ rest.length := by omega
      rw [fedNumsAdded, hi, if_neg (by simp)]
      simp [hrec]
      split <;> omega

/-- Exactly one failure in range: the failed item contributes no article. -/
lemma artUrlsAdded_single_length (f : Nat → Option FailStep) (k : Nat)
    (s : FailStep) (hf : ∀ j, f j = if j = k then some s else none) :
    ∀ (i : Nat) (docs : List RawDoc), i ≤ k → k < i + docs.length →
    (artUrlsAdded f i docs).length = docs.length - 1
  | i, [], h1, h2 => by simp at h2; omega
  | i, d :: rest, h1, h2 => by
    by_cases hik : i = k
    · have hrest : (artUrlsAdded f (i + 1) rest).length = rest.length :=
        artUrlsAdded_quiet_length f (i + 1) rest (fun j hj => by
          rw [hf j, if_neg (by omega)])
      have hfi : f i = some s := by rw [hf i, if_pos hik]
      rw [artUrlsAdded, hfi]
      simp [hrest]
    · have hi : f i = none := by rw [hf i, if_neg hik]
      simp only [List.length_cons] at h2
      have hrec := artUrlsAdded_single_length f k s hf (i + 1) rest
        (by omega) (by omega)
      have h3 : 1 ≤ rest.length := by omega
      rw [artUrlsAdded, hi]
      simp [hrec]
      omega

/-- A successful flush preserves the uniqueness invariant. -/
lemma insert_batch_unique (db : DB) (f : List PendingFed)
    (a : List PendingArticle) (db2 : DB)
    (h : insert_batch db f a = some db2) (hd : dbUnique db) : dbUnique db2 := by
  by_cases hf : f = []
  · rw [insert_batch, if_pos hf] at h
    obtain rfl := Option.some.inj h
    exact hd
  · simp only [insert_batch, if_neg hf] at h
    split_ifs at h with hc1 hc2
    obtain rfl := Option.some.inj h
    constructor
    · show ((db.fedEntries ++ _).map _).Nodup
      rw [List.map_append, List.map_map]
      rw [enum_map_snd _ (fun x => x.document_number) (fun n x => rfl) f]
      rw [List.nodup_append]
      exact ⟨hd.1, hc1.1, fun x hx => (fun hmem => hc1.2 x hmem hx)⟩
    · show ((db.articles ++ _).map _).Nodup
      rw [List.map_append, List.map_map]
      rw [enum_map_snd _ (fun x => x.source_url) (fun n x => rfl) a]
      rw [List.nodup_append]
      exact ⟨hd.2, hc2.1, fun x hx => (fun hmem => hc2.2 x hmem hx)⟩

/-- Each loop iteration preserves the uniqueness invariant. -/
lemma processDoc_unique (env : Env) (i : Nat) (doc : RawDoc) (st : LoopSt)
    (hd : dbUnique st.db) : dbUnique (processDoc env i doc st).db := by
  simp only [processDoc]
  split_ifs <;>
    first
      | exact hd
      | (split
         · rename_i db2 heq
           exact insert_batch_unique _ _ _ db2 heq hd
         · exact hd)

/-- The whole loop preserves the uniqueness invariant. -/
lemma processLoop_unique (env : Env) :
    ∀ (docs : List RawDoc) (i : Nat) (st : LoopSt),
    dbUnique st.db → dbUnique (processLoop env i docs st).db
  | [], _, _ => fun h => h
  | d :: rest, i, st => fun h =>
    processLoop_unique env rest (i + 1) (processDoc env i d st)
      (processDoc_unique env i d st h)

/-- One pipeline run preserves the uniqueness invariant, whatever the
fetched documents and the failure oracle. -/
lemma process_documents_unique (env : Env) (db : DB) (docs : List RawDoc)
    (h : dbUnique db) : dbUnique (process_documents env db docs).db := by
  by_cases hempty : docs = []
  · subst hempty
    simpa [process_documents] using h
  · have hloop := processLoop_unique env docs 1
      { db := db, new_fed_entries := [], new_articles := [],
        processed_count := 0, skipped_count := 0, error_count := 0,
        flushes := [] } h
    simp only [process_documents, if_neg hempty]
    split_ifs
    · exact hloop
    · split
      · rename_i db2 heq
        exact insert_batch_unique _ _ _ db2 heq hloop
      · exact hloop

/-- Any sequence of pipeline runs preserves the uniqueness invariant. -/
lemma runMany_unique :
    ∀ (runs : List (Env × List RawDoc)) (db : DB),
    dbUnique db → dbUnique (runMany runs db)
  | [], _ => fun h => h
  | r :: rs, db => fun h =>
    runMany_unique rs (process_documents r.1 db r.2).db
      (process_documents_unique r.1 db r.2 h)

/-- C2: the summarizer is total. For every input string, configuration and
backend outcome, `_summarize_text_real` returns `Except.ok` of some string
(no exception escapes its handlers); on empty or whitespace input it
returns the canned string; with the backend unconfigured, unreachable,
erroring, malformed, or answering an empty body it degrades to the input
truncated to `SUMMARY_MAX_FALLBACK` characters with an ellipsis marker
exactly when the input exceeds that budget; and the mock summarizer is
likewise total and nonempty. -/
theorem C2_summarizer_total (key : Bool) (backend : GrokOutcome)
    (text : String) (choice : Nat) :
    (∃ s : String, summarize_text_realE key backend text = Except.ok s) ∧
    (pyStripEmpty text = true →
      summarize_text_realE key backend text = Except.ok "No summary available.") ∧
    (pyStripEmpty text = false → key = false →
      summarize_text_realE key backend text = Except.ok (truncatedText text)) ∧
    (pyStripEmpty text = false →
      (backend = GrokOutcome.timeout ∨ backend = GrokOutcome.httpStatusError ∨
        backend = GrokOutcome.otherHttpError ∨ backend = GrokOutcome.badResponse ∨
        backend = GrokOutcome.ok "") →
      summarize_text_realE key backend text = Except.ok (truncatedText text)) ∧
    (text.length > SUMMARY_MAX_FALLBACK →
      truncatedText text = text.take SUMMARY_MAX_FALLBACK ++ "...") ∧
    (text.length ≤ SUMMARY_MAX_FALLBACK → truncatedText text = text) ∧
    (summarize_text_mock choice text ≠ "") ∧
    (pyStripEmpty text = true →
      summarize_text_mock choice text = "No summary available.") := by
  refine ⟨?_, ?_, ?_, ?_, ?_, ?_, ?_, ?_⟩
  · unfold summarize_text_realE
    by_cases h1 : pyStripEmpty text
    · exact ⟨"No summary available.", by simp [h1]⟩
    · by_cases h2 : key
      · rcases h : grokTryBody backend text with e | s
        · cases e <;> exact ⟨truncatedText text, by simp [h1, h2, h]⟩
        · exact ⟨s, by simp [h1, h2, h]⟩
      · exact ⟨truncatedText text, by simp [h1, h2]⟩
  · intro h; simp [summarize_text_realE, h]
  · intro h hk; simp [summarize_text_realE, h, hk]
  · intro h hb
    rcases hb with rfl | rfl | rfl | rfl | rfl <;> cases key <;>
      simp [summarize_text_realE, grokTryBody, h]
  · intro h; rw [truncatedText, if_pos (by omega)]
  · intro h; rw [truncatedText, if_neg (by omega)]
  · unfold summarize_text_mock
    split
    · decide
    · have hlt : choice % LOREM_IPSUM_SUMMARIES.length <
          LOREM_IPSUM_SUMMARIES.length := Nat.mod_lt _ (by decide)
      have hall : ∀ x ∈ LOREM_IPSUM_SUMMARIES, x ≠ "" := by decide
      refine hall _ ?_
      rw [List.getD_eq_getElem _ _ hlt]
      exact List.getElem_mem hlt
  · intro h; simp [summarize_text_mock, h]

/-- C2 witness: concrete instances of the summarizer contract — a timeout
with a short input degrades to the input itself, and a whitespace input
yields the canned string. -/
theorem C2_summarizer_total_witness :
    summarize_text_realE true GrokOutcome.timeout "hello" =
      Except.ok (truncatedText "hello") ∧
    summarize_text_realE false (GrokOutcome.ok "x") " " =
      Except.ok "No summary available." := by
  constructor
  · exact (C2_summarizer_total true GrokOutcome.timeout "hello" 0).2.2.2.1
      (by decide) (Or.inl rfl)
  · exact (C2_summarizer_total false (GrokOutcome.ok "x") " " 0).2.1 (by decide)

/-- C3: refuted run-guard, evaluated at the failing input. With an active
run record present (`completed_at` null, `started_at` equal to the current
clock, hence inside any positive staleness window), invoking the pipeline
on one fresh document still processes it and persists its article, and the
scraper-run table is left exactly as it was: `fetch_and_process` contains
no guard check at all and never creates a run record, contradicting the
claim that a second invocation fails to acquire the guard and does no
processing. -/
theorem C3_no_run_guard :
    (process_documents guardEnv dbWithActiveRun [guardDoc]).processed_count = 1 ∧
    (process_documents guardEnv dbWithActiveRun [guardDoc]).db.articles.length = 1 ∧
    (process_documents guardEnv dbWithActiveRun [guardDoc]).db.scraperRuns
      = [activeRun] := by
  decide

/-- C4: refuted run finalization, evaluated at the failing inputs. A run
that completes normally over one fresh document persists the article but
writes no `ScraperRun` row at all — no counts, no `completed_at`, no
`success` flag — and a run that dies in the fatal handler (final batch
violating the `document_number` unique constraint) likewise records
nothing: run history is simply never written by `fetch_and_process`. -/
theorem C4_no_run_finalization :
    ((process_documents idEnv {} [finDoc]).processed_count = 1 ∧
      (process_documents idEnv {} [finDoc]).db.articles.length = 1 ∧
      (process_documents idEnv {} [finDoc]).db.scraperRuns = []) ∧
    ((process_documents idEnv {} [dupDocA, dupDocB]).fatal = true ∧
      (process_documents idEnv {} [dupDocA, dupDocB]).db.scraperRuns = []) := by
  decide

/-- C6: refuted retry policy, evaluated at the failing input. With an
oracle under which every request to page 1 raises a timeout, the deployed
`fetch_recent_documents` (its `@retry(stop_after_attempt(3))` decorator
included) makes exactly one body invocation and issues exactly one page
request before returning `[]`: the internal `except` handlers catch the
retryable exceptions, so the configured 3-attempt backoff never executes
for any page request. -/
theorem C6_retry_never_fires :
    fetch_recent_documents (fun _ => PageResult.timeout) 20 10 = ([], 1, [1]) := by
  decide

set_option maxRecDepth 40000 in
/-- C9: batch flush boundary. With the threshold `BATCH_SIZE = 50` and 120
fresh incoming documents processed with zero errors and zero skips,
exactly three flush operations occur, with batch sizes 50, 50 and 20; all
120 entries and articles are persisted and the in-memory buffer ends
empty. -/
theorem C9_batch_flush_boundary :
    (process_documents idEnv {} docs120).flushes = [50, 50, 20] ∧
    (process_documents idEnv {} docs120).processed_count = 120 ∧
    (process_documents idEnv {} docs120).error_count = 0 ∧
    (process_documents idEnv {} docs120).skipped_count = 0 ∧
    (process_documents idEnv {} docs120).db.fedEntries.length = 120 ∧
    (process_documents idEnv {} docs120).db.articles.length = 120 ∧
    (process_documents idEnv {} docs120).new_fed_entries = [] := by
  decide

/-- C1 counterexample: two fresh fetched documents, the first of which
raises during field extraction (after its raw `FederalRegister` entry was
appended). The run isolates the error (error 1, processed 1, skipped 0)
but persists TWO records carrying the fetched document numbers — the
failed document's raw entry included — not N-1 = 1 as the claim states. -/
theorem C1_counterexample :
    (process_documents (envFailAt 1 FailStep.extract) {} [cDoc1, cDoc2]).error_count
        = 1 ∧
    (process_documents (envFailAt 1 FailStep.extract) {} [cDoc1, cDoc2]).processed_count
        = 1 ∧
    (process_documents (envFailAt 1 FailStep.extract) {} [cDoc1, cDoc2]).skipped_count
        = 0 ∧
    fedNums (process_documents (envFailAt 1 FailStep.extract) {} [cDoc1, cDoc2]).db
        = ["C1A", "C1B"] ∧
    (process_documents (envFailAt 1 FailStep.extract) {} [cDoc1, cDoc2]).db.fedEntries.length
        = 2 ∧
    (process_documents (envFailAt 1 FailStep.extract) {} [cDoc1, cDoc2]).db.articles.length
        = 1 := by
  decide

/-- C10: positional entry-article linking. Every successful flush links the
i-th pending article to the primary key assigned to the i-th pending raw
entry, for every i below the length of the shorter pending list; and in a
run where the first of two documents errors after its raw entry was
appended, the pending lists fall out of step: the failed document's raw
entry ("P1", id 1) is still persisted, the surviving article (from "P2",
url "pu2") is linked to id 1 — the entry of the OTHER document — and the
entry of "P2" (id 2) is left without any article. -/
theorem C10_positional_linking :
    (∀ (db : DB) (feds : List PendingFed) (arts : List PendingArticle) (db2 : DB),
      insert_batch db feds arts = some db2 →
      ∀ i : Nat, i < feds.length → i < arts.length →
        ∃ a, arts[i]? = some a ∧
          db2.articles[db.articles.length + i]? =
            some (withLink a (some (db.nextFedId + i)))) ∧
    ((process_documents (envFailAt 1 FailStep.extract) {} [pDoc1, pDoc2]).db.articles.map
        (fun a => (a.source_url, a.federal_register_id)) = [("pu2", some 1)] ∧
      (process_documents (envFailAt 1 FailStep.extract) {} [pDoc1, pDoc2]).db.fedEntries.map
        (fun f => (f.id, f.document_number)) = [(1, "P1"), (2, "P2")]) := by
  constructor
  · intro db feds arts db2 h i hif hia
    by_cases hf : feds = []
    · subst hf; simp at hif
    · simp only [insert_batch, if_neg hf] at h
      split_ifs at h with hc1 hc2
      · obtain ⟨a, ha⟩ : ∃ a, arts[i]? = some a :=
          ⟨arts[i], List.getElem?_eq_getElem hia⟩
        obtain ⟨pf, hpf⟩ : ∃ pf, feds[i]? = some pf :=
          ⟨feds[i], List.getElem?_eq_getElem hif⟩
        refine ⟨a, ha, ?_⟩
        obtain rfl : _ = db2 := Option.some.inj h
        show (db.articles ++ _)[db.articles.length + i]? = _
        rw [List.getElem?_append_right (by omega)]
        have hsub : db.articles.length + i - db.articles.length = i := by omega
        rw [hsub]
        simp [List.getElem?_map, List.getElem?_enum, ha, hpf]
  · constructor <;> decide

/-- C10 witness: the general linking statement applied to a concrete
one-entry flush into an empty database. -/
theorem C10_positional_linking_witness :
    ∃ a, ([wArt] : List PendingArticle)[0]? = some a ∧
      wLinkedDB.articles[({} : DB).articles.length + 0]? =
        some (withLink a (some (({} : DB).nextFedId + 0))) :=
  C10_positional_linking.1 {} [wFed] [wArt] wLinkedDB (by decide) 0
    (by decide) (by decide)

/-- C5: no duplicate records. From any database satisfying the schema
uniqueness invariant, any sequence of pipeline runs — including runs whose
fetched list contains two documents sharing a `document_number` or a
`source_url` — leaves the persisted `document_number` values pairwise
distinct and the persisted `source_url` values pairwise distinct: a record
is created at most once per external document (the declared unique
constraints make any violating flush fail and roll back). -/
theorem C5_no_duplicate_records (runs : List (Env × List RawDoc)) (db : DB)
    (h : dbUnique db) : dbUnique (runMany runs db) :=
  runMany_unique runs db h

/-- C5 witness: a single run whose fetched list contains the same document
number twice, against an empty database, ends with pairwise distinct keys
persisted. -/
theorem C5_no_duplicate_records_witness :
    dbUnique (runMany [(idEnv, [dupDocA, dupDocB])] {}) :=
  C5_no_duplicate_records [(idEnv, [dupDocA, dupDocB])] {}
    ⟨by simp [fedNums], by simp [articleUrls]⟩

/-- C7: fetch degrades to empty. Whenever the pagination loop raises — a
timeout, an HTTP error status, or any other exception, at any page — the
deployed `fetch_recent_documents` returns `[]` instead of propagating the
exception, and the pipeline invoked on that outcome performs no
processing, persists nothing, records no error and does not enter the
fatal handler: source unavailability is indistinguishable from "no new
documents". -/
theorem C7_fetch_degrades_to_empty (pages : Nat → PageResult)
    (per_page max_pages : Nat) (env : Env) (db : DB) (e : FetchErr)
    (reqs : List Nat)
    (h : fetchPages pages per_page 1 max_pages [] [] = (Except.error e, reqs)) :
    (fetch_recent_documents pages per_page max_pages).1 = [] ∧
    fetch_and_process env pages per_page max_pages db =
      { db := db, processed_count := 0, skipped_count := 0, error_count := 0,
        flushes := [], new_fed_entries := [], fatal := false } := by
  have hbody : fetch_body pages per_page max_pages = ([], reqs) := by
    simp only [fetch_body, h]
  have hfetch : fetch_recent_documents pages per_page max_pages
      = ([], 1, reqs) := by
    simp [fetch_recent_documents, tenacityRetry, tenacityRun, hbody]
  constructor
  · rw [hfetch]
  · simp only [fetch_and_process, hfetch]
    simp [process_documents]

/-- C7 witness: an oracle whose first page request answers with an HTTP
error status. -/
theorem C7_fetch_degrades_to_empty_witness :
    (fetch_recent_documents (fun _ => PageResult.httpStatusError) 5 3).1 = [] ∧
    fetch_and_process idEnv (fun _ => PageResult.httpStatusError) 5 3 {} =
      { db := {}, processed_count := 0, skipped_count := 0, error_count := 0,
        flushes := [], new_fed_entries := [], fatal := false } :=
  C7_fetch_degrades_to_empty (fun _ => PageResult.httpStatusError) 5 3 idEnv
    {} FetchErr.httpStatus [1] rfl

/-- C8: idempotence. After a clean first run over fresh, pairwise distinct
fetched documents, a second run over the same external data persists
nothing new and returns the very same database; the second run processes
0 items, skips exactly as many items as the first run ingested, and
records no errors. -/
theorem C8_idempotence (env1 env2 : Env) (db : DB) (docs : List RawDoc)
    (h1 : ∀ j, env1.failAt j = none) (h2 : ∀ j, env2.failAt j = none)
    (hn : (fedNums db ++ docs.map docNum).Nodup)
    (hu : (articleUrls db ++ docs.map docUrl).Nodup) :
    (process_documents env1 db docs).processed_count = docs.length ∧
    process_documents env2 (process_documents env1 db docs).db docs =
      { db := (process_documents env1 db docs).db, processed_count := 0,
        skipped_count := docs.length, error_count := 0, flushes := [],
        new_fed_entries := [], fatal := false } := by
  obtain ⟨g1, g2, g3, g4, g5, g6, g7⟩ := process_documents_spec env1 db docs hn hu
  constructor
  · rw [g3, okCount_of_none env1.failAt h1 1 docs]
  · apply process_documents_allDup env2 _ docs h2
    intro d hd
    left
    rw [g2, artUrlsAdded_of_none env1.failAt h1 1 docs]
    exact List.mem_append_right _ (List.mem_map_of_mem docUrl hd)

/-- C8 witness: two fresh documents ingested by a first run are all
skipped by the second, which leaves the database untouched. -/
theorem C8_idempotence_witness :
    (process_documents idEnv {} [wDocA, wDocB]).processed_count = 2 ∧
    process_documents idEnv (process_documents idEnv {} [wDocA, wDocB]).db
        [wDocA, wDocB] =
      { db := (process_documents idEnv {} [wDocA, wDocB]).db,
        processed_count := 0, skipped_count := 2, error_count := 0,
        flushes := [], new_fed_entries := [], fatal := false } := by
  have h := C8_idempotence idEnv idEnv {} [wDocA, wDocB]
    (fun _ => rfl) (fun _ => rfl) (by decide) (by decide)
  simpa using h

/-- C1 (amended): per-item error isolation, with the residual raw entry
made explicit. If exactly one of N fresh, pairwise distinct fetched items
raises during its per-item steps, the run continues and finishes with
error_count = 1, processed_count = N-1, skipped_count = 0 and no fatal
exit; exactly N-1 Article records are persisted; and exactly N-1 raw
FederalRegister entries are persisted when the exception hit the dedupe
check (before the entry append), but N — the failed item's raw entry
included — when it hit any later step (field extraction, summarization, or
article construction). -/
theorem C1_error_isolation_amended (env : Env) (db : DB) (docs : List RawDoc)
    (k : Nat) (s : FailStep)
    (hf : ∀ j, env.failAt j = if j = k then some s else none)
    (hk1 : 1 ≤ k) (hk2 : k ≤ docs.length)
    (hn : (fedNums db ++ docs.map docNum).Nodup)
    (hu : (articleUrls db ++ docs.map docUrl).Nodup) :
    (process_documents env db docs).error_count = 1 ∧
    (process_documents env db docs).processed_count = docs.length - 1 ∧
    (process_documents env db docs).skipped_count = 0 ∧
    (process_documents env db docs).db.articles.length
        = db.articles.length + (docs.length - 1) ∧
    (process_documents env db docs).db.fedEntries.length
        = db.fedEntries.length +
            (if s = FailStep.dedupe then docs.length - 1 else docs.length) ∧
    (process_documents env db docs).fatal = false := by
  obtain ⟨g1, g2, g3, g4, g5, g6, g7⟩ := process_documents_spec env db docs hn hu
  have hrange2 : k < 1 + docs.length := by omega
  refine ⟨?_, ?_, g5, ?_, ?_, g6⟩
  · rw [g4]
    exact failCount_single env.failAt k s hf 1 docs hk1 hrange2
  · rw [g3]
    exact okCount_single env.failAt k s hf 1 docs hk1 hrange2
  · have hlen := congrArg List.length g2
    simp only [articleUrls, List.length_map, List.length_append] at hlen
    rw [hlen, artUrlsAdded_single_length env.failAt k s hf 1 docs hk1 hrange2]
  · have hlen := congrArg List.length g1
    simp only [fedNums, List.length_map, List.length_append] at hlen
    rw [hlen, fedNumsAdded_single_length env.failAt k s hf 1 docs hk1 hrange2]

/-- C1 witness: the amended statement at the counterexample scenario — two
fresh documents, item 1 failing during field extraction: one error, one
processed item, one article, but both raw entries persisted. -/
theorem C1_error_isolation_amended_witness :
    (process_documents (envFailAt 1 FailStep.extract) {} [cDoc1, cDoc2]).error_count
        = 1 ∧
    (process_documents (envFailAt 1 FailStep.extract) {} [cDoc1, cDoc2]).processed_count
        = 1 ∧
    (process_documents (envFailAt 1 FailStep.extract) {} [cDoc1, cDoc2]).skipped_count
        = 0 ∧
    (process_documents (envFailAt 1 FailStep.extract) {} [cDoc1, cDoc2]).db.articles.length
        = 1 ∧
    (process_documents (envFailAt 1 FailStep.extract) {} [cDoc1, cDoc2]).db.fedEntries.length
        = 2 ∧
    (process_documents (envFailAt 1 FailStep.extract) {} [cDoc1, cDoc2]).fatal
        = false := by
  have h := C1_error_isolation_amended (envFailAt 1 FailStep.extract) {}
    [cDoc1, cDoc2] 1 FailStep.extract (fun _ => rfl) (by decide) (by decide)
    (by decide) (by decide)
  simpa using h

end OpenGov
